import Mathlib

/-!
Verification of the contexlog context-propagation logging layer.

The repository ships `contexlog/__init__.py` (which re-exports from
`contexlog.core`) and `tests/test_logger.py`.  The module `contexlog/core.py`
itself is not present in the sources, so the Context Store, the enrichment
filter (`ContextFilter`), the formatter (`ColoredFormatter`) and the logger
factory (`get_logger`) are modelled here from the specification, with the
shipped tests as additional constraints on the behaviour.
-/

namespace Contexlog

/-- A task-local context: an insertion-ordered mapping from string keys to
string values, modelling the Python dict held in a `contextvars.ContextVar`. -/
abbrev Context := List (String × String)

/-- Modelled from the spec: `contexlog.core` is missing from the sources.
Merging one key-value pair into a context, with Python-dict semantics:
an existing key keeps its position and takes the new value (last write wins);
a new key is appended at the end (insertion order). -/
def setPair (ctx : Context) (k v : String) : Context :=
  if ctx.any (fun kv => kv.1 = k) then
    ctx.map (fun kv => if kv.1 = k then (k, v) else kv)
  else
    ctx ++ [(k, v)]

/-- Modelled from the spec: `set_log_context(**kwargs)` from the missing
`contexlog.core` merges the given pairs into the current task's context,
last-write-wins per key, preserving insertion order. -/
def set_log_context (ctx : Context) (kvs : List (String × String)) : Context :=
  kvs.foldl (fun c kv => setPair c kv.1 kv.2) ctx

/-- Modelled from the spec: `clear_log_context()` from the missing
`contexlog.core` empties the current task's context. -/
def clear_log_context (_ctx : Context) : Context := []

/-- Modelled from the spec: the `log_context(**kwargs)` context manager from
the missing `contexlog.core`.  It saves the prior context, applies the
override for the block, runs the block (which may end normally or raise,
modelled by `Except`), and restores the saved context on every exit path. -/
def log_context {E α : Type} (ov : List (String × String))
    (body : Context → Except E (α × Context)) (ctx : Context) :
    Except E α × Context :=
  let entered := set_log_context ctx ov
  match body entered with
  | .ok (a, _) => (.ok a, ctx)
  | .error e => (.error e, ctx)

/-- Logical task identifiers: each native thread or cooperative task owns one
slot in the task-local store. -/
abbrev TaskId := Nat

/-- Modelled from the spec: the process-wide Context Store of the missing
`contexlog.core`, one isolated context per logical task (a `ContextVar`
holding a per-task dict). -/
def Store := TaskId → Context

/-- A mutation of the context store issued by one task. -/
inductive CtxOp where
  | set (kvs : List (String × String))
  | clear
deriving DecidableEq

/-- Applying a context operation to one task's context. -/
def CtxOp.apply (c : Context) : CtxOp → Context
  | .set kvs => set_log_context c kvs
  | .clear => clear_log_context c

/-- Modelled from the spec: a store mutation issued by task `t` touches only
task `t`'s slot — storage is task-local, never a shared global map. -/
def Store.run (s : Store) (t : TaskId) (op : CtxOp) : Store :=
  fun u => if u = t then op.apply (s u) else s u

/-- Running an interleaved sequence of context operations, each tagged with
the task that issued it. -/
def Store.runAll (s : Store) (ops : List (TaskId × CtxOp)) : Store :=
  ops.foldl (fun st p => st.run p.1 p.2) s

/-- One `key=value` display token. -/
def pairStr (kv : String × String) : String :=
  kv.1 ++ "=" ++ kv.2

/-- Modelled from the spec: the joined display string — `key=value` pairs in
insertion order, space-separated (Python's `" ".join(...)`). -/
def joinPairs : Context → String
  | [] => ""
  | [kv] => pairStr kv
  | kv :: rest => pairStr kv ++ " " ++ joinPairs rest

/-- A log record as seen by the filter and formatter: level name, message,
optional call-site metadata and timestamp, the dynamically attached
per-key attributes, and the two joined context display fields. -/
structure Record where
  levelname : String
  msg : String
  moduleName : Option String
  funcName : Option String
  lineno : Option Nat
  asctime : Option String
  attrs : List (String × String)
  context : String
  context_str : String
deriving DecidableEq

/-- A fresh record as handed to the filter: no extra attributes attached yet,
empty context display fields. -/
def mkRecord (lvl msg modl fn : String) (ln : Nat) (ts : String) : Record :=
  { levelname := lvl, msg := msg, moduleName := some modl,
    funcName := some fn, lineno := some ln, asctime := some ts,
    attrs := [], context := "", context_str := "" }

/-- Modelled from the spec: `ContextFilter` from the missing `contexlog.core`.
It reads the calling task's context snapshot; if empty it attaches
empty-string defaults for the joined display fields and injects no per-key
attributes; if non-empty it attaches each key as an individual record
attribute (overwriting on collision) and attaches the joined display string
under both `context` and `context_str` (the tests require both fields). -/
def ContextFilter.filter (ctx : Context) (r : Record) : Record :=
  if ctx = [] then
    { r with context := "", context_str := "" }
  else
    { r with attrs := set_log_context r.attrs ctx,
             context := joinPairs ctx, context_str := joinPairs ctx }

/-- Equality of fallible results is decidable when both component types
have decidable equality. -/
instance {ε α : Type} [DecidableEq ε] [DecidableEq α] :
    DecidableEq (Except ε α) := fun a b => by
  cases a <;> cases b
  case error.error e f => exact decidable_of_iff (e = f) (by simp)
  case error.ok e x => exact .isFalse (by simp)
  case ok.error x e => exact .isFalse (by simp)
  case ok.ok x y => exact decidable_of_iff (x = y) (by simp)

/-- Timestamp token of the line, with a safe placeholder when absent. -/
def timestampOf (r : Record) : String :=
  r.asctime.getD "1970-01-01 00:00:00"

/-- Call-site token `module.function:line`, with safe placeholders for
missing fields. -/
def locationOf (r : Record) : String :=
  r.moduleName.getD "unknown" ++ "." ++ r.funcName.getD "unknown" ++ ":"
    ++ toString (r.lineno.getD 0)

/-- ANSI color code for a level name: cyan for INFO, yellow for WARNING,
red for ERROR and CRITICAL, default (no code) for DEBUG. -/
def colorFor (levelname : String) : String :=
  if levelname = "INFO" then "\x1b[36m"
  else if levelname = "WARNING" then "\x1b[33m"
  else if levelname = "ERROR" then "\x1b[31m"
  else if levelname = "CRITICAL" then "\x1b[31m"
  else ""

/-- ANSI reset code. -/
def ansiReset : String := "\x1b[0m"

/-- Modelled from the spec: `ColoredFormatter.format` from the missing
`contexlog.core`.  A pure function from record to display line
`[timestamp] [LEVEL] [module.function:line] [context_str] message`, omitting
the bracketed context segment (with its trailing space) when `context_str`
is empty, coloring the level token only when the stream is a terminal, and
substituting safe defaults for missing optional fields instead of raising
(the `Except` codomain models Python's possibility of an exception; this
formatter never takes the error path). -/
def ColoredFormatter.format (isatty : Bool) (r : Record) :
    Except String String :=
  let lvl := if isatty then colorFor r.levelname ++ r.levelname ++ ansiReset
             else r.levelname
  let ctxSeg := if r.context_str = "" then "" else "[" ++ r.context_str ++ "] "
  Except.ok ("[" ++ timestampOf r ++ "] [" ++ lvl ++ "] ["
    ++ locationOf r ++ "] " ++ ctxSeg ++ r.msg)

/-- A log-record filter attached to a handler (the library attaches exactly
one, the context-enrichment filter). -/
inductive RecordFilter where
  | contextEnrichment
deriving DecidableEq

/-- The formatter attached to a handler. -/
inductive FormatterKind where
  | colored
deriving DecidableEq

/-- An output sink of a logger: a console handler with its attached filters
and formatter. -/
structure Handler where
  filters : List RecordFilter
  formatter : FormatterKind
deriving DecidableEq

/-- A named logger handle: verbosity threshold (Python numeric levels),
attached sinks, and propagation flag. -/
structure Logger where
  name : String
  level : Nat
  handlers : List Handler
  propagate : Bool
deriving DecidableEq

/-- Upper-casing of a string, character by character (Python's
`str.upper()` restricted to ASCII level names). -/
def strUpper (s : String) : String :=
  ⟨s.data.map Char.toUpper⟩

/-- Numeric level for an upper-case level name, `none` when unrecognized
(Python logging numeric values). -/
def levelFromName (s : String) : Option Nat :=
  if s = "DEBUG" then some 10
  else if s = "INFO" then some 20
  else if s = "WARNING" then some 30
  else if s = "ERROR" then some 40
  else if s = "CRITICAL" then some 50
  else none

/-- Modelled from the spec: parsing of the `LOG_LEVEL` environment variable
by the missing `contexlog.core` — case-insensitive level name; unset or
unrecognized falls back silently to INFO (20). -/
def parseLogLevel : Option String → Nat
  | none => 20
  | some v => (levelFromName (strUpper v)).getD 20

/-- Modelled from the spec: `get_logger` from the missing `contexlog.core`.
Looks up an existing handle by name in the registry and returns it
unmodified; otherwise creates a handle with exactly one sink carrying the
enrichment filter and the colored formatter, sets the threshold from the
`LOG_LEVEL` environment value, enables propagation, and registers it. -/
def get_logger (name : String) (env : Option String)
    (reg : List (String × Logger)) : Logger × List (String × Logger) :=
  match reg.lookup name with
  | some l => (l, reg)
  | none =>
    let l : Logger :=
      { name := name, level := parseLogLevel env,
        handlers := [{ filters := [.contextEnrichment],
                       formatter := .colored }],
        propagate := true }
    (l, (name, l) :: reg)

/-- The five standard levels used by the delegated logging calls. -/
inductive LogLevel where
  | debug
  | info
  | warning
  | error
  | critical
deriving DecidableEq

/-- Python numeric value of a level. -/
def LogLevel.toNat : LogLevel → Nat
  | .debug => 10
  | .info => 20
  | .warning => 30
  | .error => 40
  | .critical => 50

/-- Upper-case display name of a level. -/
def LogLevel.toName : LogLevel → String
  | .debug => "DEBUG"
  | .info => "INFO"
  | .warning => "WARNING"
  | .error => "ERROR"
  | .critical => "CRITICAL"

/-- A record as captured by an emitted-record list (level and message). -/
structure Emitted where
  level : LogLevel
  msg : String
deriving DecidableEq

/-- Modelled from the spec: a delegated logging call emits a record exactly
when the call's level passes the logger's threshold. -/
def logCall (threshold : Nat) (recs : List Emitted) (lv : LogLevel)
    (msg : String) : List Emitted :=
  if threshold ≤ lv.toNat then recs ++ [⟨lv, msg⟩] else recs

/-- Running a sequence of logging calls against a threshold, collecting the
emitted records in order. -/
def runCalls (threshold : Nat) (calls : List (LogLevel × String)) :
    List Emitted :=
  calls.foldl (fun recs c => logCall threshold recs c.1 c.2) []

end Contexlog

namespace Contexlog

/-- Every pair of a context occurs as a substring of the joined display
string (exhibited by an explicit decomposition). -/
theorem joinPairs_contains (l : Context) (kv : String × String)
    (hm : kv ∈ l) :
    ∃ pre post, joinPairs l = pre ++ pairStr kv ++ post := by
  induction l with
  | nil => cases hm
  | cons a t ih =>
    cases t with
    | nil =>
      rcases List.mem_singleton.mp hm with rfl
      exact ⟨"", "", by simp [joinPairs, String.append_empty,
        String.empty_append]⟩
    | cons b t2 =>
      rcases List.mem_cons.mp hm with rfl | hm2
      · refine ⟨"", " " ++ joinPairs (b :: t2), ?_⟩
        simp only [joinPairs, String.empty_append]
        rw [String.append_assoc]
      · rcases ih hm2 with ⟨pre, post, hpp⟩
        refine ⟨pairStr a ++ " " ++ pre, post, ?_⟩
        simp only [joinPairs, hpp]
        simp [String.append_assoc]

/-- A single store mutation by one task leaves every other task's slot
untouched. -/
theorem Store.run_other (s : Store) (t u : TaskId) (op : CtxOp)
    (h : u ≠ t) : Store.run s t op u = s u := by
  simp [Store.run, h]

/-- A sequence of store mutations, none issued by task `t2`, leaves
task `t2`'s slot untouched. -/
theorem Store.runAll_other (s : Store) (ops : List (TaskId × CtxOp))
    (t2 : TaskId) (h : ∀ p ∈ ops, p.1 ≠ t2) :
    Store.runAll s ops t2 = s t2 := by
  induction ops generalizing s with
  | nil => rfl
  | cons p tl ih =>
    have hstep : Store.run s p.1 p.2 t2 = s t2 :=
      Store.run_other s p.1 t2 p.2 fun hq => h p (List.mem_cons_self p tl) hq.symm
    calc Store.runAll s (p :: tl) t2
        = Store.runAll (Store.run s p.1 p.2) tl t2 := rfl
      _ = Store.run s p.1 p.2 t2 := ih _ fun q hq => h q (List.mem_cons_of_mem p hq)
      _ = s t2 := hstep

end Contexlog

namespace Contexlog

/-- C1: context entries written via set_log_context or log_context by tasks
other than `t2` (modelled as any sequence of store operations on other
tasks' slots) are never observed by the enrichment filter when a log call
is issued from `t2`; each task sees only its own context store. -/
theorem context_isolation (s : Store) (ops : List (TaskId × CtxOp))
    (t2 : TaskId) (h : ∀ p ∈ ops, p.1 ≠ t2) :
    Store.runAll s ops t2 = s t2 ∧
    ∀ r : Record, ContextFilter.filter (Store.runAll s ops t2) r
      = ContextFilter.filter (s t2) r := by
  have heq := Store.runAll_other s ops t2 h
  exact ⟨heq, fun r => by rw [heq]⟩

/-- Witness for C1 at a concrete store and operation list: task 1 sets
`user_id`, and task 2's slot is untouched. -/
theorem context_isolation_witness :
    (∀ p ∈ [((1 : TaskId), CtxOp.set [("user_id", "123")])],
      p.1 ≠ (2 : TaskId)) ∧
    Store.runAll (fun _ => [])
      [((1 : TaskId), CtxOp.set [("user_id", "123")])] 2
      = (fun _ => ([] : Context)) 2 :=
  ⟨by decide,
    (context_isolation (fun _ => [])
      [((1 : TaskId), CtxOp.set [("user_id", "123")])] 2 (by decide)).1⟩

/-- C2: entering the log_context context manager applies the override for
the block (the body runs on the merged context), and on every exit path —
normal completion or an exception raised inside the block — the task's
context is restored exactly to the prior context. -/
theorem log_context_restores {E α : Type} (ov : List (String × String))
    (body : Context → Except E (α × Context)) (ctx : Context) :
    (log_context ov body ctx).2 = ctx ∧
    (log_context ov body ctx).1
      = (body (set_log_context ctx ov)).map Prod.fst := by
  cases h : body (set_log_context ctx ov) with
  | ok pa => simp [log_context, h, Except.map]
  | error e => simp [log_context, h, Except.map]

/-- C3: after clear_log_context followed by set_log_context with
user_id=123 and request_id=abc, the enriched record exposes both keys as
individual attributes with those values, and the emitted line carries the
bracketed segment `user_id=123 request_id=abc` — the pairs joined
space-separated in insertion order of the keys. -/
theorem clear_set_log_line (c0 : Context) :
    (ContextFilter.filter
      (set_log_context (clear_log_context c0)
        [("user_id", "123"), ("request_id", "abc")])
      (mkRecord "INFO" "Processing user request" "main" "run" 4
        "2024-01-17 10:30:45")).attrs.lookup "user_id" = some "123" ∧
    (ContextFilter.filter
      (set_log_context (clear_log_context c0)
        [("user_id", "123"), ("request_id", "abc")])
      (mkRecord "INFO" "Processing user request" "main" "run" 4
        "2024-01-17 10:30:45")).attrs.lookup "request_id" = some "abc" ∧
    ColoredFormatter.format false
      (ContextFilter.filter
        (set_log_context (clear_log_context c0)
          [("user_id", "123"), ("request_id", "abc")])
        (mkRecord "INFO" "Processing user request" "main" "run" 4
          "2024-01-17 10:30:45"))
      = .ok ("[2024-01-17 10:30:45] [INFO] [main.run:4] "
          ++ "[user_id=123 request_id=abc] Processing user request") := by
  simp only [clear_log_context]
  decide

/-- C4: when the current task's context is empty at the time of a log call,
the enriched record's context and context_str fields are both the empty
string, no per-key attributes are injected, and the emitted line carries no
bracketed context segment. -/
theorem empty_context_log (c0 : Context) (r : Record) :
    (ContextFilter.filter (clear_log_context c0) r).context = "" ∧
    (ContextFilter.filter (clear_log_context c0) r).context_str = "" ∧
    (ContextFilter.filter (clear_log_context c0) r).attrs = r.attrs ∧
    ColoredFormatter.format false (ContextFilter.filter (clear_log_context c0) r)
      = .ok ("[" ++ timestampOf r ++ "] [" ++ r.levelname ++ "] ["
          ++ locationOf r ++ "] " ++ r.msg) := by
  refine ⟨rfl, rfl, rfl, ?_⟩
  have hfe : ContextFilter.filter (clear_log_context c0) r
      = { r with context := "", context_str := "" } := rfl
  rw [hfe]
  simp [ColoredFormatter.format, timestampOf, locationOf,
    String.append_empty]

end Contexlog

namespace Contexlog

/-- C5: a second call to get_logger with the same name returns the
already-registered handle unmodified — the registry is unchanged, the
handle still has exactly one attached sink, and that sink carries exactly
one filter and the colored formatter (no duplicates added). -/
theorem get_logger_idempotent (name : String) (env : Option String)
    (reg : List (String × Logger)) (h : reg.lookup name = none) :
    (get_logger name env (get_logger name env reg).2).1
      = (get_logger name env reg).1 ∧
    (get_logger name env (get_logger name env reg).2).2
      = (get_logger name env reg).2 ∧
    (get_logger name env (get_logger name env reg).2).1.handlers.length = 1 ∧
    (get_logger name env (get_logger name env reg).2).1.handlers.map
      (fun hd => (hd.filters, hd.formatter))
      = [([RecordFilter.contextEnrichment], FormatterKind.colored)] := by
  simp [get_logger, h, List.lookup]

/-- Witness for C5 at a concrete name and an empty registry. -/
theorem get_logger_idempotent_witness :
    (List.lookup "test.duplicate" ([] : List (String × Logger)) = none) ∧
    (get_logger "test.duplicate" none
      (get_logger "test.duplicate" none []).2).1.handlers.length = 1 :=
  ⟨by decide,
    (get_logger_idempotent "test.duplicate" none [] (by decide)).2.2.1⟩

/-- C6: the verbosity threshold is parsed from the LOG_LEVEL environment
value case-insensitively for DEBUG, INFO, WARNING, ERROR and CRITICAL;
unset or unrecognized values fall back silently to INFO (20); and a fresh
get_logger handle takes exactly this parsed threshold. -/
theorem get_logger_level_from_env :
    (∀ v : String, strUpper v = "DEBUG" → parseLogLevel (some v) = 10) ∧
    (∀ v : String, strUpper v = "INFO" → parseLogLevel (some v) = 20) ∧
    (∀ v : String, strUpper v = "WARNING" → parseLogLevel (some v) = 30) ∧
    (∀ v : String, strUpper v = "ERROR" → parseLogLevel (some v) = 40) ∧
    (∀ v : String, strUpper v = "CRITICAL" → parseLogLevel (some v) = 50) ∧
    parseLogLevel none = 20 ∧
    (∀ v : String, levelFromName (strUpper v) = none →
      parseLogLevel (some v) = 20) ∧
    (∀ (name : String) (env : Option String)
      (reg : List (String × Logger)), reg.lookup name = none →
      ((get_logger name env reg).1).level = parseLogLevel env) := by
  refine ⟨?_, ?_, ?_, ?_, ?_, rfl, ?_, ?_⟩
  · intro v h; simp [parseLogLevel, h, levelFromName]
  · intro v h; simp [parseLogLevel, h, levelFromName]
  · intro v h; simp [parseLogLevel, h, levelFromName]
  · intro v h; simp [parseLogLevel, h, levelFromName]
  · intro v h; simp [parseLogLevel, h, levelFromName]
  · intro v h; simp [parseLogLevel, h]
  · intro name env reg h; simp [get_logger, h]

/-- Witness for C6: a lower-case value, an unrecognized value, and a fresh
handle created under LOG_LEVEL=warning. -/
theorem get_logger_level_from_env_witness :
    parseLogLevel (some "Debug") = 10 ∧
    parseLogLevel (some "verbose") = 20 ∧
    ((get_logger "app" (some "warning") []).1).level = 30 := by
  obtain ⟨hdbg, _, hwarn, _, _, _, hfall, hget⟩ := get_logger_level_from_env
  refine ⟨hdbg "Debug" (by decide), hfall "verbose" (by decide), ?_⟩
  exact (hget "app" (some "warning") [] (by decide)).trans
    (hwarn "warning" (by decide))

/-- C7: the formatter renders exactly the line
`[timestamp] [LEVEL] [module.function:line] [context] message`, and when
the record's context string is empty the bracketed context segment,
including its trailing space, is omitted entirely. -/
theorem formatter_line_shape (r : Record) :
    (r.context_str ≠ "" → ColoredFormatter.format false r =
      .ok ("[" ++ timestampOf r ++ "] [" ++ r.levelname ++ "] ["
        ++ locationOf r ++ "] " ++ ("[" ++ r.context_str ++ "] ")
        ++ r.msg)) ∧
    (r.context_str = "" → ColoredFormatter.format false r =
      .ok ("[" ++ timestampOf r ++ "] [" ++ r.levelname ++ "] ["
        ++ locationOf r ++ "] " ++ r.msg)) := by
  constructor
  · intro h
    simp [ColoredFormatter.format, h, String.append_assoc]
  · intro h
    simp [ColoredFormatter.format, h, String.append_empty]

/-- Witness for C7 on two concrete records, one with and one without a
context string. -/
theorem formatter_line_shape_witness :
    (("user_id=123" : String) ≠ "" ∧
      ColoredFormatter.format false
        { mkRecord "INFO" "hi" "main" "run" 4 "2024-01-17 10:30:45" with
          context := "user_id=123", context_str := "user_id=123" } =
        .ok ("[" ++ "2024-01-17 10:30:45" ++ "] [" ++ "INFO" ++ "] ["
          ++ "main.run:4" ++ "] " ++ ("[" ++ "user_id=123" ++ "] ")
          ++ "hi")) ∧
    (("" : String) = "" ∧
      ColoredFormatter.format false
        (mkRecord "INFO" "hi" "main" "run" 4 "2024-01-17 10:30:45") =
        .ok ("[" ++ "2024-01-17 10:30:45" ++ "] [" ++ "INFO" ++ "] ["
          ++ "main.run:4" ++ "] " ++ "hi")) := by
  constructor
  · refine ⟨by decide, ?_⟩
    have h := (formatter_line_shape
      { mkRecord "INFO" "hi" "main" "run" 4 "2024-01-17 10:30:45" with
        context := "user_id=123", context_str := "user_id=123" }).1
      (by decide)
    exact h.trans (by decide)
  · refine ⟨rfl, ?_⟩
    have h := (formatter_line_shape
      (mkRecord "INFO" "hi" "main" "run" 4 "2024-01-17 10:30:45")).2 rfl
    exact h.trans (by decide)

end Contexlog

namespace Contexlog

/-- C8: with the threshold at DEBUG, calling debug, info, warning, error,
critical once each in that sequence emits exactly 5 records whose level
names appear in exactly that order. -/
theorem log_levels_in_order (m1 m2 m3 m4 m5 : String) :
    (runCalls LogLevel.debug.toNat
      [(.debug, m1), (.info, m2), (.warning, m3), (.error, m4),
        (.critical, m5)]).length = 5 ∧
    (runCalls LogLevel.debug.toNat
      [(.debug, m1), (.info, m2), (.warning, m3), (.error, m4),
        (.critical, m5)]).map (fun e => e.level.toName)
      = ["DEBUG", "INFO", "WARNING", "ERROR", "CRITICAL"] := by
  constructor <;> rfl

/-- C9: formatting any record, including records whose optional fields are
all missing, returns a display string (never the error path), and missing
optional fields are substituted by the same safe defaults an
all-fields-present record would show. -/
theorem formatter_never_raises :
    (∀ (tty : Bool) (r : Record), ∃ s,
      ColoredFormatter.format tty r = .ok s) ∧
    (∀ (tty : Bool) (lvl msg : String) (attrs : List (String × String))
      (c cs : String),
      ColoredFormatter.format tty
        { levelname := lvl, msg := msg, moduleName := none,
          funcName := none, lineno := none, asctime := none,
          attrs := attrs, context := c, context_str := cs }
      = ColoredFormatter.format tty
        { levelname := lvl, msg := msg, moduleName := some "unknown",
          funcName := some "unknown", lineno := some 0,
          asctime := some "1970-01-01 00:00:00",
          attrs := attrs, context := c, context_str := cs }) := by
  constructor
  · intro tty r
    exact ⟨_, rfl⟩
  · intro tty lvl msg attrs c cs
    rfl

/-- C10: for a log call under a non-empty context, the enriched record
carries the two separately named string fields context and context_str,
holding the same joined display string, and each key=value pair of the
context occurs inside it. -/
theorem filter_duplicated_context_fields (ctx : Context) (r : Record)
    (h : ctx ≠ []) :
    (ContextFilter.filter ctx r).context = joinPairs ctx ∧
    (ContextFilter.filter ctx r).context_str
      = (ContextFilter.filter ctx r).context ∧
    ∀ kv ∈ ctx, ∃ pre post,
      (ContextFilter.filter ctx r).context = pre ++ pairStr kv ++ post := by
  have hf : ContextFilter.filter ctx r
      = { r with attrs := set_log_context r.attrs ctx,
                 context := joinPairs ctx,
                 context_str := joinPairs ctx } := by
    simp [ContextFilter.filter, h]
  rw [hf]
  exact ⟨rfl, rfl, fun kv hm => joinPairs_contains ctx kv hm⟩

/-- Witness for C10 at a concrete one-entry context. -/
theorem filter_duplicated_context_fields_witness :
    ([(("user_id" : String), ("123" : String))] ≠ ([] : Context)) ∧
    (ContextFilter.filter [("user_id", "123")]
      (mkRecord "INFO" "m" "main" "run" 1 "t")).context_str
    = (ContextFilter.filter [("user_id", "123")]
      (mkRecord "INFO" "m" "main" "run" 1 "t")).context :=
  ⟨by decide,
    (filter_duplicated_context_fields [("user_id", "123")]
      (mkRecord "INFO" "m" "main" "run" 1 "t") (by decide)).2.1⟩

end Contexlog
